import Mathlib

/-!
Verification of the pricing core of the `token-swap` AMM program.

The Rust source operates on `u128` (and, inside the stable-swap solver, on
256-bit `U256`) machine integers with checked arithmetic: every operation
returns `Option`, failing on overflow, underflow, or division by zero.  We
embed the code shallowly: machine integers become `Nat` with explicit
maximum-value guards (`U64_MAX`, `U128_MAX`, `U256_MAX`), and every checked
operation becomes a `Nat`-valued function into `Option`.  Rust's
`saturating_sub` on unsigned integers coincides with truncated `Nat`
subtraction.
-/

namespace TokenSwap

/-- Largest value of a Rust `u64`. -/
def U64_MAX : Nat := 2 ^ 64 - 1

/-- Largest value of a Rust `u128`. -/
def U128_MAX : Nat := 2 ^ 128 - 1

/-- Largest value of the 256-bit `U256` type used by the stable-swap solver. -/
def U256_MAX : Nat := 2 ^ 256 - 1

/-- `u128::checked_add`: fails when the sum leaves the `u128` range. -/
def checked_add (a b : Nat) : Option Nat :=
  if a + b ≤ U128_MAX then some (a + b) else none

/-- `u128::checked_sub`: fails when the subtrahend exceeds the minuend. -/
def checked_sub (a b : Nat) : Option Nat :=
  if b ≤ a then some (a - b) else none

/-- `u128::checked_mul`: fails when the product leaves the `u128` range. -/
def checked_mul (a b : Nat) : Option Nat :=
  if a * b ≤ U128_MAX then some (a * b) else none

/-- `u128::checked_div`: fails on a zero divisor, otherwise floor division. -/
def checked_div (a b : Nat) : Option Nat :=
  if b = 0 then none else some (a / b)

/-- `u128::checked_rem`: fails on a zero divisor, otherwise the remainder. -/
def checked_rem (a b : Nat) : Option Nat :=
  if b = 0 then none else some (a % b)

/-- `u64::checked_mul`, used by `compute_a` in `stable.rs`. -/
def u64_checked_mul (a b : Nat) : Option Nat :=
  if a * b ≤ U64_MAX then some (a * b) else none

/-- `u64::checked_sub`, used by `calculate_step` in `stable.rs`. -/
def u64_checked_sub (a b : Nat) : Option Nat :=
  if b ≤ a then some (a - b) else none

/-- `map_zero_to_none` from `curve/calculator.rs`: rejects a zero amount. -/
def map_zero_to_none (x : Nat) : Option Nat :=
  if x = 0 then none else some x

/-- `TradeDirection` from `curve/calculator.rs`. -/
inductive TradeDirection where
  | AtoB
  | BtoA
deriving DecidableEq, Repr

/-- `RoundDirection` from `curve/calculator.rs`. -/
inductive RoundDirection where
  | Floor
  | Ceiling
deriving DecidableEq, Repr

/-- `SwapWithoutFeesResult` from `curve/calculator.rs`. -/
structure SwapWithoutFeesResult where
  source_amount_swapped : Nat
  destination_amount_swapped : Nat
deriving DecidableEq, Repr

/-- `TradingTokenResult` from `curve/calculator.rs`. -/
structure TradingTokenResult where
  token_a_amount : Nat
  token_b_amount : Nat
deriving DecidableEq, Repr

/-- `CheckedCeilDiv::checked_ceil_div` for `u128` from the `spl-math`
dependency of this crate (`spl_math::checked_ceil_div`), which
`constant_product.rs` and `constant_price.rs` call.  It floors the quotient,
fails when the floored quotient is zero, otherwise ceils the quotient when a
remainder exists, and in that case also recomputes the divisor as the ceiling
of `lhs / quotient` so the divisor charged is the minimum that still yields
the ceiled quotient. -/
def checked_ceil_div (lhs rhs : Nat) : Option (Nat × Nat) := do
  let quotient ← checked_div lhs rhs
  if quotient = 0 then
    none
  else
    let remainder ← checked_rem lhs rhs
    if remainder > 0 then
      let quotient1 ← checked_add quotient 1
      let rhs1 ← checked_div lhs quotient1
      let remainder1 ← checked_rem lhs quotient1
      if remainder1 > 0 then
        let rhs2 ← checked_add rhs1 1
        pure (quotient1, rhs2)
      else
        pure (quotient1, rhs1)
    else
      pure (quotient, rhs)

/-- The free function `swap` from `curve/constant_product.rs`. -/
def swap (source_amount swap_source_amount swap_destination_amount : Nat) :
    Option SwapWithoutFeesResult := do
  let invariant ← checked_mul swap_source_amount swap_destination_amount
  let new_swap_source_amount ← checked_add swap_source_amount source_amount
  let (new_swap_destination_amount, new_swap_source_amount) ←
    checked_ceil_div invariant new_swap_source_amount
  let source_amount_swapped ← checked_sub new_swap_source_amount swap_source_amount
  let dest_diff ← checked_sub swap_destination_amount new_swap_destination_amount
  let destination_amount_swapped ← map_zero_to_none dest_diff
  pure ⟨source_amount_swapped, destination_amount_swapped⟩

/-- `ConstantProductCurve::swap_without_fees` from `curve/constant_product.rs`:
ignores the trade direction and delegates to `swap`. -/
def ConstantProductCurve.swap_without_fees
    (source_amount swap_source_amount swap_destination_amount : Nat)
    (_trade_direction : TradeDirection) : Option SwapWithoutFeesResult :=
  swap source_amount swap_source_amount swap_destination_amount

/-- `calculate_fee` from `curve/fees.rs`. -/
def calculate_fee (token_amount fee_numerator fee_denominator : Nat) : Option Nat :=
  if fee_numerator = 0 ∨ token_amount = 0 then
    some 0
  else do
    let product ← checked_mul token_amount fee_numerator
    let fee ← checked_div product fee_denominator
    if fee = 0 then
      some 1
    else
      some fee

/-- The free function `pool_tokens_to_trading_tokens` from
`curve/constant_product.rs`: proportional conversion with the selected
rounding; the `Ceiling` arm bumps each side by one when its division has a
non-zero remainder and a non-zero floored quotient. -/
def pool_tokens_to_trading_tokens
    (pool_tokens pool_token_supply swap_token_a_amount swap_token_b_amount : Nat)
    (round_direction : RoundDirection) : Option TradingTokenResult := do
  let prod_a ← checked_mul pool_tokens swap_token_a_amount
  let token_a_amount ← checked_div prod_a pool_token_supply
  let prod_b ← checked_mul pool_tokens swap_token_b_amount
  let token_b_amount ← checked_div prod_b pool_token_supply
  match round_direction with
  | RoundDirection.Floor =>
      pure ⟨token_a_amount, token_b_amount⟩
  | RoundDirection.Ceiling => do
      let prod_a2 ← checked_mul pool_tokens swap_token_a_amount
      let token_a_remainder ← checked_rem prod_a2 pool_token_supply
      let token_a_amount :=
        if token_a_remainder > 0 ∧ token_a_amount > 0 then token_a_amount + 1
        else token_a_amount
      let prod_b2 ← checked_mul pool_tokens swap_token_b_amount
      let token_b_remainder ← checked_rem prod_b2 pool_token_supply
      let token_b_amount :=
        if token_b_remainder > 0 ∧ token_b_amount > 0 then token_b_amount + 1
        else token_b_amount
      pure ⟨token_a_amount, token_b_amount⟩

/-- `Offset::pool_tokens_to_trading_tokens` from `curve/offset.rs`.  The
source binds `let token_b_offset = self.token_b_offset as u128;` and then
delegates to the constant-product routine with the original
`swap_token_b_amount`, never using the binding. -/
def Offset.pool_tokens_to_trading_tokens (token_b_offset : Nat)
    (pool_tokens pool_token_supply swap_token_a_amount swap_token_b_amount : Nat)
    (round_direction : RoundDirection) : Option TradingTokenResult :=
  let _token_b_offset := token_b_offset
  TokenSwap.pool_tokens_to_trading_tokens pool_tokens pool_token_supply
    swap_token_a_amount swap_token_b_amount round_direction

/-- The scaling constant `ONE = 10^12` of `spl_math::precise_number`. -/
def PRECISE_ONE : Nat := 1000000000000

/-- `spl_math::precise_number::PreciseNumber`: a non-negative fixed-point
value stored as a `U256` integer scaled by `PRECISE_ONE`. -/
structure PreciseNumber where
  value : Nat
deriving DecidableEq, Repr

/-- `PreciseNumber::new`: scales an integer by `ONE` with a checked `U256`
multiplication. -/
def PreciseNumber.new (v : Nat) : Option PreciseNumber :=
  if v * PRECISE_ONE ≤ U256_MAX then some ⟨v * PRECISE_ONE⟩ else none

/-- `ConstantPriceCurve::swap_without_fees` from `curve/constant_price.rs`:
fixed-rate pricing; on an A-to-B trade the source amount is trimmed down to
an exact multiple of the price, and zero source or destination amounts are
rejected through `map_zero_to_none`. -/
def ConstantPriceCurve.swap_without_fees (token_b_price : Nat)
    (source_amount _swap_source_amount _swap_destination_amount : Nat)
    (trade_direction : TradeDirection) : Option SwapWithoutFeesResult := do
  let (source_amount_swapped, destination_amount_swapped) ←
    match trade_direction with
    | TradeDirection.BtoA => do
        let d ← checked_mul source_amount token_b_price
        pure (source_amount, d)
    | TradeDirection.AtoB => do
        let destination_amount_swapped ← checked_div source_amount token_b_price
        let remainder ← checked_rem source_amount token_b_price
        let source_amount_swapped ←
          if remainder > 0 then checked_sub source_amount remainder
          else pure source_amount
        pure (source_amount_swapped, destination_amount_swapped)
  let source_amount_swapped ← map_zero_to_none source_amount_swapped
  let destination_amount_swapped ← map_zero_to_none destination_amount_swapped
  pure ⟨source_amount_swapped, destination_amount_swapped⟩

/-- `ConstantPriceCurve::normalized_value` from `curve/constant_price.rs`.
Rust's `saturating_sub` on `u128` is truncated `Nat` subtraction. -/
def ConstantPriceCurve.normalized_value (token_b_price : Nat)
    (swap_token_a_amount swap_token_b_amount : Nat) : Option PreciseNumber := do
  let swap_token_b_value ← checked_mul swap_token_b_amount token_b_price
  let value ←
    if swap_token_b_value - U64_MAX > U128_MAX - U64_MAX then do
      let half_b ← checked_div swap_token_b_value 2
      let half_a ← checked_div swap_token_a_amount 2
      checked_add half_b half_a
    else do
      let sum ← checked_add swap_token_a_amount swap_token_b_value
      checked_div sum 2
  PreciseNumber.new value

/-- `compute_a` from `curve/stable.rs`: the stored amplification times the
coin count (`N_COINS = 2`), with a checked `u64` multiplication. -/
def compute_a (amp : Nat) : Option Nat :=
  u64_checked_mul amp 2

/-- `U256::checked_add` used inside `curve/stable.rs`. -/
def c256_add (a b : Nat) : Option Nat :=
  if a + b ≤ U256_MAX then some (a + b) else none

/-- `U256::checked_mul` used inside `curve/stable.rs`. -/
def c256_mul (a b : Nat) : Option Nat :=
  if a * b ≤ U256_MAX then some (a * b) else none

/-- `U256::checked_div` used inside `curve/stable.rs`. -/
def c256_div (a b : Nat) : Option Nat :=
  if b = 0 then none else some (a / b)

/-- The loop body of `checked_u8_mul` from `curve/stable.rs`: `count`
further checked additions of `a` onto the accumulator. -/
def checked_u8_mul_loop (a : Nat) : Nat → Nat → Option Nat
  | acc, 0 => some acc
  | acc, count + 1 => do
      let acc2 ← c256_add acc a
      checked_u8_mul_loop a acc2 count

/-- `checked_u8_mul` from `curve/stable.rs`: multiplies by a small count via
repeated checked addition (`for _ in 1..b` performs `b - 1` additions). -/
def checked_u8_mul (a b : Nat) : Option Nat :=
  checked_u8_mul_loop a a (b - 1)

/-- `calculate_step` from `curve/stable.rs`: one Newton update
`d = (leverage * sum_x + 2 * d_product) * initial_d /
((leverage - 1) * initial_d + 3 * d_product)` in checked `U256` arithmetic;
`leverage - 1` is a checked `u64` subtraction. -/
def calculate_step (initial_d leverage sum_x d_product : Nat) : Option Nat := do
  let leverage_mul ← c256_mul leverage sum_x
  let d_p_mul ← checked_u8_mul d_product 2
  let l_sum ← c256_add leverage_mul d_p_mul
  let l_val ← c256_mul l_sum initial_d
  let leverage_minus_one ← u64_checked_sub leverage 1
  let leverage_sub ← c256_mul initial_d leverage_minus_one
  let n_coins_sum ← checked_u8_mul d_product 3
  let r_val ← c256_add leverage_sub n_coins_sum
  c256_div l_val r_val

/-- The Newton iteration loop of `compute_d` from `curve/stable.rs`, with the
remaining iteration count as fuel (the source caps it at `ITERATIONS = 32`)
and the bit-for-bit early stop `if d == d_previous break`. -/
def compute_d_loop (leverage sum_x amount_a_times_coins amount_b_times_coins : Nat) :
    Nat → Nat → Option Nat
  | d, 0 => some d
  | d, fuel + 1 => do
      let square ← c256_mul d d
      let d_product1 ← c256_div square amount_a_times_coins
      let triple ← c256_mul d_product1 d
      let d_product ← c256_div triple amount_b_times_coins
      let d_next ← calculate_step d leverage sum_x d_product
      if d_next = d then some d_next
      else compute_d_loop leverage sum_x amount_a_times_coins amount_b_times_coins d_next fuel

/-- `compute_d` from `curve/stable.rs`: the stable-swap invariant solver.
`sum_x == 0` short-circuits to `Some 0`; otherwise up to 32 Newton rounds
starting from `d = sum_x`, then `u128::try_from(d).ok()`. -/
def compute_d (leverage amount_a amount_b : Nat) : Option Nat := do
  let a_twice ← checked_u8_mul amount_a 2
  let amount_a_times_coins ← c256_add a_twice 1
  let b_twice ← checked_u8_mul amount_b 2
  let amount_b_times_coins ← c256_add b_twice 1
  let sum_x ← checked_add amount_a amount_b
  if sum_x = 0 then
    some 0
  else do
    let d ← compute_d_loop leverage sum_x amount_a_times_coins amount_b_times_coins sum_x 32
    if d ≤ U128_MAX then some d else none

theorem checked_add_eq_some {a b c : Nat} :
    checked_add a b = some c ↔ a + b ≤ U128_MAX ∧ a + b = c := by
  unfold checked_add
  split <;> simp_all

theorem checked_sub_eq_some {a b c : Nat} :
    checked_sub a b = some c ↔ b ≤ a ∧ a - b = c := by
  unfold checked_sub
  split <;> simp_all

theorem checked_mul_eq_some {a b c : Nat} :
    checked_mul a b = some c ↔ a * b ≤ U128_MAX ∧ a * b = c := by
  unfold checked_mul
  split <;> simp_all

theorem checked_div_eq_some {a b c : Nat} :
    checked_div a b = some c ↔ b ≠ 0 ∧ a / b = c := by
  unfold checked_div
  split <;> simp_all

theorem checked_rem_eq_some {a b c : Nat} :
    checked_rem a b = some c ↔ b ≠ 0 ∧ a % b = c := by
  unfold checked_rem
  split <;> simp_all

theorem map_zero_to_none_eq_some {x y : Nat} :
    map_zero_to_none x = some y ↔ x ≠ 0 ∧ x = y := by
  unfold map_zero_to_none
  split <;> simp_all

/-- The three facts about `checked_ceil_div lhs rhs = some (q, r2)` that the
swap claims rest on: the quotient is positive, the adjusted divisor never
exceeds the original one, and quotient times adjusted divisor covers the
dividend. -/
theorem checked_ceil_div_spec {l r q r2 : Nat}
    (h : checked_ceil_div l r = some (q, r2)) :
    0 < q ∧ r2 ≤ r ∧ l ≤ q * r2 := by
  by_cases hr : r = 0
  · simp [checked_ceil_div, checked_div, hr] at h
  by_cases hq0 : l / r = 0
  · simp [checked_ceil_div, checked_div, hr, hq0] at h
  have hrpos : 0 < r := Nat.pos_of_ne_zero hr
  have hmodlt : l % r < r := Nat.mod_lt l hrpos
  by_cases hrem : l % r = 0
  · have hz : ¬ (0 < l % r) := by omega
    simp [checked_ceil_div, checked_div, checked_rem, hr, hq0, hz] at h
    obtain ⟨h1, h2⟩ := h
    refine ⟨h1 ▸ Nat.pos_of_ne_zero hq0, le_of_eq h2.symm, ?_⟩
    rw [← h1, ← h2]
    exact le_of_eq (Nat.div_mul_cancel (Nat.dvd_of_mod_eq_zero hrem)).symm
  · have hrempos : 0 < l % r := Nat.pos_of_ne_zero hrem
    have hQpos : 0 < l / r + 1 := Nat.succ_pos _
    have hlt : l < r * (l / r + 1) := by
      calc l = r * (l / r) + l % r := (Nat.div_add_mod l r).symm
        _ < r * (l / r) + r := Nat.add_lt_add_left hmodlt _
        _ = r * (l / r + 1) := by ring
    have hr1lt : l / (l / r + 1) < r := (Nat.div_lt_iff_lt_mul hQpos).mpr hlt
    by_cases hb1 : l / r + 1 ≤ U128_MAX
    · by_cases hrem1 : l % (l / r + 1) = 0
      · have hz1 : ¬ (0 < l % (l / r + 1)) := by omega
        simp [checked_ceil_div, checked_div, checked_rem, checked_add,
          hr, hq0, hrempos, hb1, hz1] at h
        obtain ⟨h1, h2⟩ := h
        refine ⟨h1 ▸ hQpos, ?_, ?_⟩
        · rw [← h2]; exact le_of_lt hr1lt
        · rw [← h1, ← h2]
          exact le_of_eq (Nat.mul_div_cancel' (Nat.dvd_of_mod_eq_zero hrem1)).symm
      · have hrem1pos : 0 < l % (l / r + 1) := Nat.pos_of_ne_zero hrem1
        by_cases hb2 : l / (l / r + 1) + 1 ≤ U128_MAX
        · simp [checked_ceil_div, checked_div, checked_rem, checked_add,
            hr, hq0, hrempos, hb1, hrem1pos, hb2] at h
          obtain ⟨h1, h2⟩ := h
          refine ⟨h1 ▸ hQpos, ?_, ?_⟩
          · rw [← h2]; exact Nat.succ_le_of_lt hr1lt
          · rw [← h1, ← h2]
            calc l = (l / r + 1) * (l / (l / r + 1)) + l % (l / r + 1) :=
                  (Nat.div_add_mod l (l / r + 1)).symm
              _ ≤ (l / r + 1) * (l / (l / r + 1)) + (l / r + 1) :=
                  Nat.add_le_add_left (le_of_lt (Nat.mod_lt l hQpos)) _
              _ = (l / r + 1) * (l / (l / r + 1) + 1) := by ring
        · simp [checked_ceil_div, checked_div, checked_rem, checked_add,
            hr, hq0, hrempos, hb1, hrem1pos, hb2] at h
    · simp [checked_ceil_div, checked_div, checked_rem, checked_add,
        hr, hq0, hrempos, hb1] at h

/-- Inversion of a successful constant-product `swap`: names the ceiling
division's quotient and adjusted divisor and relates the result fields to
them. -/
theorem swap_eq_some {s a b : Nat} {res : SwapWithoutFeesResult}
    (h : swap s a b = some res) :
    ∃ q r2, checked_ceil_div (a * b) (a + s) = some (q, r2) ∧
      a * b ≤ U128_MAX ∧ a + s ≤ U128_MAX ∧
      a ≤ r2 ∧ q ≤ b ∧ b - q ≠ 0 ∧
      res.source_amount_swapped = r2 - a ∧
      res.destination_amount_swapped = b - q := by
  unfold swap at h
  simp only [Option.bind_eq_bind, Option.bind_eq_some, checked_mul_eq_some,
    checked_add_eq_some, checked_sub_eq_some, map_zero_to_none_eq_some,
    Option.pure_def, Option.some.injEq] at h
  obtain ⟨inv, ⟨hinvle, hinv⟩, newsrc, ⟨hnsle, hns⟩, ⟨q, r2⟩, hcd, src,
    ⟨har2, hsrc⟩, dd, ⟨hqb, hdd⟩, dd2, ⟨hddne, hdd2⟩, hres⟩ := h
  subst hinv hns
  refine ⟨q, r2, hcd, hinvle, hnsle, har2, hqb, ?_, ?_, ?_⟩ <;>
    subst hres <;> simp_all

/-- Auxiliary fact about the ceiling bump performed by the `Ceiling` arm of
`pool_tokens_to_trading_tokens`: with `x` the floored quotient and `y` the
remainder, the bumped amount is between `x` and `x + 1`, exceeds `x` only when
both the remainder and `x` are non-zero, and stays `0` when `x = 0`. -/
theorem ceiling_bump_spec (x y : Nat) :
    x ≤ (if 0 < y ∧ 0 < x then x + 1 else x) ∧
    (if 0 < y ∧ 0 < x then x + 1 else x) ≤ x + 1 ∧
    ((if 0 < y ∧ 0 < x then x + 1 else x) = x + 1 → y ≠ 0 ∧ x ≠ 0) ∧
    (x = 0 → (if 0 < y ∧ 0 < x then x + 1 else x) = 0) := by
  split_ifs with h
  · omega
  · rw [not_and_or] at h
    omega

/-- Claim C1: for every successful constant-product `swap` with positive
reserves, the recomputed invariant
`(swap_source_amount + source_amount_swapped) *
 (swap_destination_amount - destination_amount_swapped)`
is at least the old invariant
`swap_source_amount * swap_destination_amount`: the product `k` never
shrinks across a swap. -/
theorem swap_preserves_invariant
    (source_amount swap_source_amount swap_destination_amount : Nat)
    (res : SwapWithoutFeesResult)
    (hsrc : 0 < swap_source_amount) (hdst : 0 < swap_destination_amount)
    (h : swap source_amount swap_source_amount swap_destination_amount = some res) :
    swap_source_amount * swap_destination_amount ≤
      (swap_source_amount + res.source_amount_swapped) *
        (swap_destination_amount - res.destination_amount_swapped) := by
  obtain ⟨q, r2, hcd, -, -, har2, hqb, -, hs, hd⟩ := swap_eq_some h
  obtain ⟨hq, hr2r, hle⟩ := checked_ceil_div_spec hcd
  rw [hs, hd]
  have h1 : swap_source_amount + (r2 - swap_source_amount) = r2 := by omega
  have h2 : swap_destination_amount - (swap_destination_amount - q) = q := by omega
  rw [h1, h2]
  exact hle.trans_eq (Nat.mul_comm q r2)

/-- Witness for claim C1 at reserves (1000, 1000) and source amount 100. -/
theorem swap_preserves_invariant_witness :
    0 < 1000 ∧ swap 100 1000 1000 = some ⟨99, 90⟩ ∧
      1000 * 1000 ≤ (1000 + 99) * (1000 - 90) :=
  ⟨by decide, by decide,
    swap_preserves_invariant 100 1000 1000 ⟨99, 90⟩ (by decide) (by decide) (by decide)⟩

/-- Claim C2: the constant-product swap with reserves (1000, 1000) and
source amount 100 on the A-to-B direction succeeds with
`destination_amount_swapped = 90`, and 90 is exactly the ceiling-division
formula applied to the invariant `k = 1000000`. -/
theorem swap_example_1000_1000_100 :
    ConstantProductCurve.swap_without_fees 100 1000 1000 TradeDirection.AtoB =
      some ⟨99, 90⟩ ∧
    1000 - (1000000 + (1100 - 1)) / 1100 = 90 := by
  exact ⟨by decide, by decide⟩

/-- Claim C8: a successful constant-product swap always leaves the
destination reserve positive: `destination_amount_swapped` is strictly less
than `swap_destination_amount`, because the new destination reserve computed
by the ceiling division is at least 1. -/
theorem swap_destination_lt_reserve
    (source_amount swap_source_amount swap_destination_amount : Nat)
    (res : SwapWithoutFeesResult)
    (h : swap source_amount swap_source_amount swap_destination_amount = some res) :
    res.destination_amount_swapped < swap_destination_amount := by
  obtain ⟨q, r2, hcd, -, -, -, hqb, hne, -, hd⟩ := swap_eq_some h
  obtain ⟨hq, -, -⟩ := checked_ceil_div_spec hcd
  rw [hd]
  omega

/-- Witness for claim C8 at reserves (1000, 1000) and source amount 100. -/
theorem swap_destination_lt_reserve_witness :
    swap 100 1000 1000 = some ⟨99, 90⟩ ∧ 90 < 1000 :=
  ⟨by decide, swap_destination_lt_reserve 100 1000 1000 ⟨99, 90⟩ (by decide)⟩

/-- Claim C9: a successful constant-product swap never charges more source
tokens than offered: `source_amount_swapped ≤ source_amount`, because the
divisor adjustment inside the ceiling division can only shrink the divisor. -/
theorem swap_source_le_offered
    (source_amount swap_source_amount swap_destination_amount : Nat)
    (res : SwapWithoutFeesResult)
    (h : swap source_amount swap_source_amount swap_destination_amount = some res) :
    res.source_amount_swapped ≤ source_amount := by
  obtain ⟨q, r2, hcd, -, -, har2, -, -, hs, -⟩ := swap_eq_some h
  obtain ⟨-, hr2r, -⟩ := checked_ceil_div_spec hcd
  rw [hs]
  omega

/-- Witness for claim C9 at reserves (1000, 1000) and source amount 100. -/
theorem swap_source_le_offered_witness :
    swap 100 1000 1000 = some ⟨99, 90⟩ ∧ 99 ≤ 100 :=
  ⟨by decide, swap_source_le_offered 100 1000 1000 ⟨99, 90⟩ (by decide)⟩

/-- Claim C10: with `token_b_price = 0`, the constant-price
`swap_without_fees` returns `none` for every source amount, both reserves and
both trade directions: A-to-B fails on the guarded division by zero, B-to-A
produces a zero destination amount, which `map_zero_to_none` rejects. -/
theorem zero_price_swap_fails
    (source_amount swap_source_amount swap_destination_amount : Nat)
    (trade_direction : TradeDirection) :
    ConstantPriceCurve.swap_without_fees 0 source_amount
      swap_source_amount swap_destination_amount trade_direction = none := by
  cases trade_direction
  · simp [ConstantPriceCurve.swap_without_fees, checked_div]
  · by_cases hs : source_amount = 0 <;>
      simp [ConstantPriceCurve.swap_without_fees, checked_mul, map_zero_to_none, hs]

/-- Claim C3 (failing-input evaluation): with `token_b_offset = 10`, the
offset curve's `pool_tokens_to_trading_tokens` at
`(pool_tokens, supply, token_a, token_b) = (1, 2, 10, 10)` returns the plain
constant-product result `⟨5, 5⟩`, not the result `⟨5, 10⟩` of the
constant-product routine applied to `(token_a, token_b + token_b_offset)`:
the stored offset is ignored. -/
theorem offset_ignored_in_pool_token_conversion :
    Offset.pool_tokens_to_trading_tokens 10 1 2 10 10 RoundDirection.Floor =
      some ⟨5, 5⟩ ∧
    pool_tokens_to_trading_tokens 1 2 10 (10 + 10) RoundDirection.Floor =
      some ⟨5, 10⟩ := by
  exact ⟨by decide, by decide⟩

/-- Claim C4 (counterexample to the claim as stated): for
`token_amount = 2^127`, `fee_numerator = 3`, `fee_denominator = 4` — all
positive — `calculate_fee` returns `none` (the checked multiplication
overflows `u128`), not `Some fee`. -/
theorem calculate_fee_overflow_counterexample :
    0 < 2 ^ 127 ∧ 0 < 3 ∧ 0 < 4 ∧ calculate_fee (2 ^ 127) 3 4 = none := by
  exact ⟨by decide, by decide, by decide, by decide⟩

/-- Claim C4 (amended): for every positive token amount, positive numerator
and positive denominator, whenever `calculate_fee` returns `Some fee`, the
fee is at least 1 — the computed fee is never zero. -/
theorem calculate_fee_min_one
    (token_amount fee_numerator fee_denominator fee : Nat)
    (h1 : 0 < token_amount) (h2 : 0 < fee_numerator) (h3 : 0 < fee_denominator)
    (h : calculate_fee token_amount fee_numerator fee_denominator = some fee) :
    1 ≤ fee := by
  unfold calculate_fee at h
  rw [if_neg (by omega)] at h
  simp only [Option.bind_eq_bind, Option.bind_eq_some, checked_mul_eq_some,
    checked_div_eq_some] at h
  obtain ⟨p, ⟨-, hp⟩, q, ⟨-, hq⟩, h⟩ := h
  split at h <;> simp only [Option.some.injEq] at h <;> omega

/-- Witness for claim C4: numerator 1, denominator 100 applied to amount 50
yields fee 1. -/
theorem calculate_fee_min_one_witness :
    0 < 50 ∧ 0 < 1 ∧ 0 < 100 ∧ calculate_fee 50 1 100 = some 1 ∧ 1 ≤ 1 :=
  ⟨by decide, by decide, by decide, by decide,
    calculate_fee_min_one 50 1 100 1 (by decide) (by decide) (by decide) (by decide)⟩

/-- Claim C5 (counterexample to the claim as stated): at
`token_b_price = 1`, `reserve_a = reserve_b = 2^127`, the sum
`reserve_a + reserve_b * price = 2^128` exceeds the `u128` width and
`ConstantPriceCurve::normalized_value` returns `none` — the call fails on the
addition overflow instead of taking an overflow-avoidance branch. -/
theorem normalized_value_overflow_counterexample :
    U128_MAX < 2 ^ 127 + 2 ^ 127 * 1 ∧
    ConstantPriceCurve.normalized_value 1 (2 ^ 127) (2 ^ 127) = none := by
  exact ⟨by decide, by decide⟩

/-- Claim C5 (amended): for every price and reserve pair in range,
`ConstantPriceCurve::normalized_value` returns the `PreciseNumber` of
`⌊(reserve_a + reserve_b * price) / 2⌋` when both the scaled product and the
sum fit in `u128`, and `none` otherwise: the guard of the overflow-avoidance
branch is unsatisfiable, so that branch never executes and an overflowing
addition fails the call. -/
theorem constant_price_normalized_value_eq (token_b_price a b : Nat)
    (hp : token_b_price ≤ U64_MAX) (ha : a ≤ U128_MAX) (hb : b ≤ U128_MAX) :
    ConstantPriceCurve.normalized_value token_b_price a b =
      (if b * token_b_price ≤ U128_MAX ∧ a + b * token_b_price ≤ U128_MAX then
        some ⟨(a + b * token_b_price) / 2 * PRECISE_ONE⟩
      else none) := by
  unfold ConstantPriceCurve.normalized_value
  simp only [checked_mul, checked_add, checked_div, PreciseNumber.new,
    Option.bind_eq_bind']
  by_cases hm : b * token_b_price ≤ U128_MAX
  · have hguard : ¬ (b * token_b_price - U64_MAX > U128_MAX - U64_MAX) := by
      unfold U64_MAX U128_MAX at *
      omega
    rw [if_pos hm, Option.some_bind, if_neg hguard]
    by_cases hadd : a + b * token_b_price ≤ U128_MAX
    · have hdivle : (a + b * token_b_price) / 2 ≤ U128_MAX :=
        le_trans (Nat.div_le_self _ _) hadd
      have hone : U128_MAX * PRECISE_ONE ≤ U256_MAX := by decide
      have hv : (a + b * token_b_price) / 2 * PRECISE_ONE ≤ U256_MAX :=
        le_trans (Nat.mul_le_mul_right _ hdivle) hone
      rw [if_pos (⟨hm, hadd⟩ : _ ∧ _), if_pos hadd, Option.some_bind,
        if_neg (by decide : ¬ (2 : Nat) = 0), Option.some_bind, if_pos hv]
    · rw [if_neg hadd, Option.none_bind,
        if_neg (fun hc : _ ∧ a + b * token_b_price ≤ U128_MAX => hadd hc.2)]
  · rw [if_neg hm, Option.none_bind,
      if_neg (fun hc : b * token_b_price ≤ U128_MAX ∧ _ => hm hc.1)]

/-- Witness for claim C5 at price 1 and reserves (4, 6). -/
theorem constant_price_normalized_value_eq_witness :
    (1 ≤ U64_MAX ∧ 4 ≤ U128_MAX ∧ 6 ≤ U128_MAX) ∧
    ConstantPriceCurve.normalized_value 1 4 6 =
      (if 6 * 1 ≤ U128_MAX ∧ 4 + 6 * 1 ≤ U128_MAX then
        some ⟨(4 + 6 * 1) / 2 * PRECISE_ONE⟩
      else none) :=
  ⟨⟨by decide, by decide, by decide⟩,
    constant_price_normalized_value_eq 1 4 6 (by decide) (by decide) (by decide)⟩

/-- Claim C6: when both the `Floor` and the `Ceiling` call of the
constant-product `pool_tokens_to_trading_tokens` succeed, each ceiling-rounded
side is at least the floor-rounded side, exceeds it by at most 1 — and only
when its division has a non-zero remainder and the floor result is non-zero —
and a floor result of zero is never rounded up to a non-zero amount. -/
theorem rounding_monotonicity
    (pool_tokens pool_token_supply swap_token_a_amount swap_token_b_amount : Nat)
    (rF rC : TradingTokenResult)
    (hF : pool_tokens_to_trading_tokens pool_tokens pool_token_supply
      swap_token_a_amount swap_token_b_amount RoundDirection.Floor = some rF)
    (hC : pool_tokens_to_trading_tokens pool_tokens pool_token_supply
      swap_token_a_amount swap_token_b_amount RoundDirection.Ceiling = some rC) :
    (rF.token_a_amount ≤ rC.token_a_amount ∧
     rC.token_a_amount ≤ rF.token_a_amount + 1 ∧
     (rC.token_a_amount = rF.token_a_amount + 1 →
        pool_tokens * swap_token_a_amount % pool_token_supply ≠ 0 ∧
        rF.token_a_amount ≠ 0) ∧
     (rF.token_a_amount = 0 → rC.token_a_amount = 0)) ∧
    (rF.token_b_amount ≤ rC.token_b_amount ∧
     rC.token_b_amount ≤ rF.token_b_amount + 1 ∧
     (rC.token_b_amount = rF.token_b_amount + 1 →
        pool_tokens * swap_token_b_amount % pool_token_supply ≠ 0 ∧
        rF.token_b_amount ≠ 0) ∧
     (rF.token_b_amount = 0 → rC.token_b_amount = 0)) := by
  unfold pool_tokens_to_trading_tokens at hF hC
  simp only [Option.bind_eq_bind, Option.bind_eq_some, checked_mul_eq_some,
    checked_div_eq_some, checked_rem_eq_some, Option.pure_def,
    Option.some.injEq] at hF hC
  obtain ⟨pa, ⟨-, hpaF⟩, xa, ⟨hps, hxaF⟩, pb, ⟨-, hpbF⟩, xb, ⟨-, hxbF⟩, hFres⟩ := hF
  obtain ⟨pa2, ⟨-, hpaC⟩, xa2, ⟨-, hxaC⟩, pb2, ⟨-, hpbC⟩, xb2, ⟨-, hxbC⟩,
    pa3, ⟨-, hpa3⟩, ya, ⟨-, hya⟩, pb3, ⟨-, hpb3⟩, yb, ⟨-, hyb⟩, hCres⟩ := hC
  subst hpaF hpbF hpaC hpbC hpa3 hpb3
  subst hxaF hxbF hxaC hxbC hya hyb
  subst hFres hCres
  constructor
  · exact ceiling_bump_spec _ _
  · exact ceiling_bump_spec _ _

/-- Witness for claim C6 at `(pool_tokens, supply, token_a, token_b) =
(5, 10, 2, 49)`: floor gives `⟨1, 24⟩`, ceiling gives `⟨1, 25⟩`. -/
theorem rounding_monotonicity_witness :
    (pool_tokens_to_trading_tokens 5 10 2 49 RoundDirection.Floor = some ⟨1, 24⟩ ∧
     pool_tokens_to_trading_tokens 5 10 2 49 RoundDirection.Ceiling = some ⟨1, 25⟩) ∧
    ((1 ≤ 1 ∧ 1 ≤ 1 + 1 ∧ (1 = 1 + 1 → 5 * 2 % 10 ≠ 0 ∧ 1 ≠ 0) ∧
        (1 = 0 → 1 = 0)) ∧
     (24 ≤ 25 ∧ 25 ≤ 24 + 1 ∧ (25 = 24 + 1 → 5 * 49 % 10 ≠ 0 ∧ 24 ≠ 0) ∧
        (24 = 0 → 25 = 0))) :=
  ⟨⟨by decide, by decide⟩,
    rounding_monotonicity 5 10 2 49 ⟨1, 24⟩ ⟨1, 25⟩ (by decide) (by decide)⟩

/-- Claim C7: with leverage `compute_a 100 = 200` and equal reserves
(1000, 1000), `compute_d` returns 2000 within the 32-iteration cap; the very
first Newton update already reproduces the estimate bit-for-bit, so the loop
stops early; and for every leverage `compute_d leverage 0 0 = some 0` via the
zero-sum fast path, without iterating. -/
theorem stable_curve_compute_d_example :
    compute_a 100 = some 200 ∧
    compute_d 200 1000 1000 = some 2000 ∧
    compute_d_loop 200 2000 2001 2001 2000 1 = some 2000 ∧
    ∀ leverage : Nat, compute_d leverage 0 0 = some 0 := by
  refine ⟨by decide, by decide, by decide, fun leverage => rfl⟩

end TokenSwap
